import Mathlib

/-!
Verification of the syncronicity BigQuery-to-Snowflake transfer pipeline.

Shallow embedding of the Go sources:
  * `pkg/bigquery/bigquery.go` — call options and backoff, read-session
    creation, the streaming reader (`readNextResponse`, `processRecordBatch`,
    `Read`, `Schema`, `Close`);
  * `pkg/snowflake` (the `Client` version) — `WriteArrowRecordToParquet`,
    `UploadParquetToStage` (stage-path normalization), `ArrowToParquetStage`,
    `LoadArrowIntoSnowflake`;
  * `internal/config/config.go` — the required configuration keys.

External effects (gRPC, the Arrow IPC decoder, the filesystem, the Snowflake
connection) are modelled by explicit parameters and action traces; machine
integers of the source are modelled as `Nat` (no overflow is reachable in the
quantities involved: row counts and millisecond delays).
-/

namespace Syncronicity

/-! ### Backoff policy and call options (bigquery.go, lines 27-62)

`gax.OnCodes(codes, backoff)` retries exactly the listed gRPC status codes.
`gax.Backoff` keeps a current delay `cur` starting at `Initial`; each pause
returns (a jittered fraction of) `cur` and then sets
`cur := min (cur * Multiplier) Max`.  We model the deterministic envelope
(the jitter is a random fraction of the envelope and is abstracted away);
the multiplier 1.3 is represented exactly as 13/10 over `Nat` milliseconds. -/

structure BackoffM where
  initialMs : Nat
  maxMs : Nat
  multTenths : Nat
  deriving DecidableEq, Repr

structure RetryPolicyM where
  codes : List Nat
  backoff : BackoffM
  deriving DecidableEq, Repr

structure CallOptionsM where
  createReadSession : RetryPolicyM
  readRows : RetryPolicyM
  deriving DecidableEq, Repr

/-- gRPC status code DeadlineExceeded. -/
def codeDeadlineExceeded : Nat := 4

/-- gRPC status code Unavailable. -/
def codeUnavailable : Nat := 14

/-- Translation of `defaultBigQueryReadCallOptions` (bigquery.go lines 35-62):
CreateReadSession retries on {DeadlineExceeded, Unavailable}, ReadRows retries
on {Unavailable} only; both use Initial 100ms, Max 60s, Multiplier 1.3. -/
def defaultBigQueryReadCallOptions : CallOptionsM :=
  { createReadSession :=
      { codes := [codeDeadlineExceeded, codeUnavailable],
        backoff := { initialMs := 100, maxMs := 60000, multTenths := 13 } },
    readRows :=
      { codes := [codeUnavailable],
        backoff := { initialMs := 100, maxMs := 60000, multTenths := 13 } } }

/-- Retry eligibility of `gax.OnCodes`: retry iff the error code is listed. -/
def shouldRetry (p : RetryPolicyM) (c : Nat) : Bool := p.codes.contains c

/-- Envelope of the `gax.Backoff` delay sequence: the delay used for attempt
`n` (0-based).  Attempt 0 uses `Initial`; afterwards the envelope is
multiplied by 13/10 and capped at `Max`. -/
def backoffDelay (b : BackoffM) : Nat → Nat
  | 0 => b.initialMs
  | n + 1 => min (backoffDelay b n * b.multTenths / 10) b.maxMs

/-- The default backoff envelope stays within [100ms, 60s]. -/
theorem backoffDelay_bounds (n : Nat) :
    100 ≤ backoffDelay { initialMs := 100, maxMs := 60000, multTenths := 13 } n ∧
      backoffDelay { initialMs := 100, maxMs := 60000, multTenths := 13 } n ≤ 60000 := by
  induction n with
  | zero => constructor <;> simp [backoffDelay]
  | succ n ih =>
    obtain ⟨h1, h2⟩ := ih
    set d := backoffDelay { initialMs := 100, maxMs := 60000, multTenths := 13 } n with hd
    have hdiv : 100 * 13 / 10 ≤ d * 13 / 10 :=
      Nat.div_le_div_right (Nat.mul_le_mul_right _ h1)
    constructor
    · rw [backoffDelay, ← hd]
      have h100 : (100 : Nat) ≤ d * 13 / 10 := le_trans (by norm_num) hdiv
      exact le_min h100 (by norm_num)
    · rw [backoffDelay, ← hd]
      exact min_le_right _ _

/-- The default backoff envelope is non-decreasing. -/
theorem backoffDelay_mono (n : Nat) :
    backoffDelay { initialMs := 100, maxMs := 60000, multTenths := 13 } n ≤
      backoffDelay { initialMs := 100, maxMs := 60000, multTenths := 13 } (n + 1) := by
  obtain ⟨h1, h2⟩ := backoffDelay_bounds n
  set d := backoffDelay { initialMs := 100, maxMs := 60000, multTenths := 13 } n with hd
  rw [backoffDelay, ← hd]
  refine le_min ?_ h2
  calc d = d * 10 / 10 := by rw [Nat.mul_div_cancel _ (by norm_num)]
    _ ≤ d * 13 / 10 := Nat.div_le_div_right (Nat.mul_le_mul_left _ (by norm_num))

/-! ### Stage-path normalization (UploadParquetToStage, snowflake Client)

The source normalizes the stage reference before the PUT command:

    if !strings.HasPrefix(stagePath, "@") { stagePath = "@" + stagePath }
    stagePath = strings.ReplaceAll(stagePath, "@@", "@")

`strings.ReplaceAll` replaces non-overlapping occurrences scanning left to
right; `replaceAllAtAt` is that scan specialized to pattern "@@" over the
character list of the string. -/

def replaceAllAtAt : List Char → List Char
  | [] => []
  | [c] => [c]
  | c1 :: c2 :: rest =>
      if c1 = '@' ∧ c2 = '@' then '@' :: replaceAllAtAt rest
      else c1 :: replaceAllAtAt (c2 :: rest)

/-- The HasPrefix guard: prepend the marker unless already present. -/
def ensureAt (x : List Char) : List Char :=
  if x.head? = some '@' then x else '@' :: x

/-- Stage-path normalization as performed by `UploadParquetToStage`. -/
def normalizeStage (x : List Char) : List Char := replaceAllAtAt (ensureAt x)

/-- Whether the string contains two consecutive marker characters. -/
def containsDouble : List Char → Bool
  | c1 :: c2 :: rest => (c1 == '@' && c2 == '@') || containsDouble (c2 :: rest)
  | _ => false

/-- Whether the string contains three consecutive marker characters. -/
def containsTriple : List Char → Bool
  | c1 :: c2 :: c3 :: rest =>
      (c1 == '@' && c2 == '@' && c3 == '@') || containsTriple (c2 :: c3 :: rest)
  | _ => false

theorem containsTriple_tail : ∀ (a : Char) (l : List Char),
    containsTriple (a :: l) = false → containsTriple l = false
  | _, [], _ => rfl
  | _, [_], _ => rfl
  | a, b :: c :: r, h => by
      rw [containsTriple, Bool.or_eq_false_iff] at h
      exact h.2

theorem replaceAllAtAt_head : ∀ (c : Char) (rest : List Char),
    ∃ t, replaceAllAtAt (c :: rest) = c :: t := by
  intro c rest
  cases rest with
  | nil => exact ⟨[], rfl⟩
  | cons c2 r =>
    by_cases h : c = '@' ∧ c2 = '@'
    · refine ⟨replaceAllAtAt r, ?_⟩
      rw [replaceAllAtAt, if_pos h, h.1]
    · exact ⟨replaceAllAtAt (c2 :: r), by rw [replaceAllAtAt, if_neg h]⟩

theorem replaceAllAtAt_of_noDouble : ∀ y, containsDouble y = false → replaceAllAtAt y = y
  | [], _ => rfl
  | [_], _ => rfl
  | c1 :: c2 :: rest, h => by
      rw [containsDouble, Bool.or_eq_false_iff] at h
      obtain ⟨h1, h2⟩ := h
      have h1' : ¬(c1 = '@' ∧ c2 = '@') := by
        intro ⟨a, b⟩
        simp [a, b] at h1
      rw [replaceAllAtAt, if_neg h1', replaceAllAtAt_of_noDouble (c2 :: rest) h2]

theorem noDouble_replaceAllAtAt : ∀ x, containsTriple x = false →
    containsDouble (replaceAllAtAt x) = false
  | [], _ => rfl
  | [c], _ => by rw [replaceAllAtAt]; rfl
  | c1 :: c2 :: rest, h => by
      by_cases h12 : c1 = '@' ∧ c2 = '@'
      · obtain ⟨e1, e2⟩ := h12
        subst e1; subst e2
        rw [replaceAllAtAt, if_pos ⟨rfl, rfl⟩]
        cases rest with
        | nil => rfl
        | cons c3 r3 =>
          have hc3 : ¬ c3 = '@' := by
            intro e
            subst e
            rw [containsTriple] at h
            simp at h
          have ht : containsTriple (c3 :: r3) = false :=
            containsTriple_tail _ _ (containsTriple_tail _ _ h)
          have ih := noDouble_replaceAllAtAt (c3 :: r3) ht
          obtain ⟨t, hhd⟩ := replaceAllAtAt_head c3 r3
          rw [hhd]
          rw [hhd] at ih
          rw [containsDouble, Bool.or_eq_false_iff]
          refine ⟨?_, ih⟩
          simp [hc3]
      · rw [replaceAllAtAt, if_neg h12]
        have ht : containsTriple (c2 :: rest) = false := containsTriple_tail _ _ h
        have ih := noDouble_replaceAllAtAt (c2 :: rest) ht
        obtain ⟨t, hhd⟩ := replaceAllAtAt_head c2 rest
        rw [hhd]
        rw [hhd] at ih
        rw [containsDouble, Bool.or_eq_false_iff]
        refine ⟨?_, ih⟩
        rcases Decidable.not_and_iff_or_not.mp h12 with hn | hn <;> simp [hn]

theorem containsTriple_ensureAt (x : List Char) (h : containsTriple x = false) :
    containsTriple (ensureAt x) = false := by
  rw [ensureAt]
  split
  · exact h
  · rename_i hne
    match x, hne with
    | [], _ => rfl
    | [a], _ => rfl
    | a :: b :: r, hne =>
        rw [containsTriple, Bool.or_eq_false_iff]
        refine ⟨?_, h⟩
        have ha : ¬ a = '@' := fun e => hne (by rw [List.head?, e])
        simp [ha]

theorem normalizeStage_head (x : List Char) : (normalizeStage x).head? = some '@' := by
  rw [normalizeStage, ensureAt]
  split
  · rename_i heq
    match x, heq with
    | a :: r, heq =>
        have : a = '@' := by simpa [List.head?] using heq
        subst this
        obtain ⟨t, hhd⟩ := replaceAllAtAt_head '@' r
        rw [hhd]; rfl
  · obtain ⟨t, hhd⟩ := replaceAllAtAt_head '@' x
    rw [hhd]; rfl

theorem normalizeStage_idem_of_noTriple (x : List Char) (h : containsTriple x = false) :
    normalizeStage (normalizeStage x) = normalizeStage x := by
  have h1 : containsTriple (ensureAt x) = false := containsTriple_ensureAt x h
  have h2 : containsDouble (normalizeStage x) = false := noDouble_replaceAllAtAt _ h1
  have h3 : (normalizeStage x).head? = some '@' := normalizeStage_head x
  show replaceAllAtAt (ensureAt (normalizeStage x)) = normalizeStage x
  rw [ensureAt, if_pos h3]
  exact replaceAllAtAt_of_noDouble _ h2

/-- C4 (amended): stage-path normalization collapses a doubled leading marker
to a single marker, and it is idempotent on every stage reference that
contains no run of three or more marker characters.  (It is not idempotent in
general: see the counterexample with three consecutive markers.) -/
theorem C4_normalizeStage_idem :
    (∀ x, containsTriple x = false →
      normalizeStage (normalizeStage x) = normalizeStage x) ∧
    (∀ s, normalizeStage ('@' :: '@' :: s) = '@' :: replaceAllAtAt s) := by
  refine ⟨normalizeStage_idem_of_noTriple, ?_⟩
  intro s
  rw [normalizeStage, ensureAt]
  have hh : ('@' :: '@' :: s).head? = some '@' := rfl
  rw [if_pos hh]
  rw [replaceAllAtAt, if_pos ⟨rfl, rfl⟩]

/-- C4 counterexample: normalization is not idempotent as claimed.  On the
stage reference "@@@" one pass yields "@@" (the left-to-right non-overlapping
replacement of "@@" by "@" consumes the first two markers and leaves the
third), while a second pass yields "@".  -/
theorem C4_counterexample :
    normalizeStage (normalizeStage ['@', '@', '@']) ≠ normalizeStage ['@', '@', '@'] ∧
      normalizeStage ['@', '@', '@'] = ['@', '@'] := by
  constructor <;> decide

/-- C4 witness: the amended idempotence at the concrete reference "a@@b". -/
theorem C4_witness :
    containsTriple ['a', '@', '@', 'b'] = false ∧
      normalizeStage (normalizeStage ['a', '@', '@', 'b']) =
        normalizeStage ['a', '@', '@', 'b'] :=
  ⟨by decide, C4_normalizeStage_idem.1 ['a', '@', '@', 'b'] (by decide)⟩

/-! ### The streaming reader (bigquery.go, lines 131-259)

`BigQueryReader` holds the serialized schema, the session's stream list, the
current gRPC stream, the row offset, and a reusable IPC reader.  The remote
service is modelled as a function from (stream name, row offset) to the
sequence of receive steps the server will deliver on a stream opened there: a
step is either a `ReadRowsResponse` or a transport error; an exhausted list
is the server closing the stream (`Recv` returns `io.EOF`).

A `RespM` carries the wire field `rowCount` (read by `GetRowCount`), the
serialized record batch bytes, and — as the denotation needed to state
row-level correctness — the list of row values the batch encodes. -/

structure RespM where
  rowCount : Nat
  rows : List Nat
  batch : List Nat
  deriving DecidableEq, Repr

inductive RecvStep
  | resp (r : RespM)
  | errS (code : Nat)
  deriving DecidableEq, Repr

/-- A materialized Arrow record; only its row count matters to the claims. -/
structure RecM where
  numRows : Nat
  deriving DecidableEq, Repr

/-- Model of an `ipc.Reader`: a parsed schema (opaque, as a `Nat` tag), the
decoded records, and the cursor position advanced by `Next()`. -/
structure IpcM where
  schema : Nat
  recs : List RecM
  pos : Nat
  deriving DecidableEq, Repr

/-- Model of `BigQueryReader` (bigquery.go lines 133-148).  `conn` is the
current `storagepb.BigQueryRead_ReadRowsClient` stream (`none` when unset),
holding the steps the server has yet to deliver; `r` is the IPC reader. -/
structure ReaderM where
  schemaBytes : List Nat
  streams : List String
  conn : Option (List RecvStep)
  offset : Nat
  r : Option IpcM
  deriving DecidableEq, Repr

inductive RRes
  | eof
  | errR (code : Nat)
  | okR (resp : RespM)
  deriving DecidableEq, Repr

/-- One `Recv` on an open stream whose undelivered steps are `pending`:
an empty list is `io.EOF` (the code sets `r.stream = nil` and returns EOF);
an error step is returned without touching the state (the code wraps and
returns it, leaving `r.stream` and `r.offset` unchanged); a response advances
the offset by `GetRowCount()` only after the response is received. -/
def recvStep (s : ReaderM) (pending : List RecvStep) : RRes × ReaderM :=
  match pending with
  | [] => (.eof, { s with conn := none })
  | .errS c :: _ => (.errR c, s)
  | .resp r :: rest =>
      (.okR r, { s with conn := some rest, offset := s.offset + r.rowCount })

/-- Translation of `readNextResponse` (bigquery.go lines 185-212).  With no
open stream it returns EOF when the session has no streams, otherwise opens
the FIRST stream (`r.streams[0]`) at the current offset; then it performs one
`Recv`.  The third component records the open calls performed (stream name
and offset), for stating which streams are ever opened. -/
def readNextResponse (service : String → Nat → List RecvStep) (s : ReaderM) :
    RRes × ReaderM × List (String × Nat) :=
  match s.conn with
  | some pending =>
      let p := recvStep s pending
      (p.1, p.2, [])
  | none =>
      match s.streams with
      | [] => (.eof, s, [])
      | nm :: _ =>
          let pending := service nm s.offset
          let p := recvStep { s with conn := some pending } pending
          (p.1, p.2, [(nm, s.offset)])

/-- Driver collecting the responses a consumer obtains from the reader.  A
transport error is handled as the claim's premise prescribes: the stream is
interrupted and successfully resumed, i.e. the dead stream is dropped and the
next iteration reopens at the recorded offset (which is exactly what
`ReadRows{Offset: r.offset}` does).  Returns the collected responses, whether
end-of-stream was reached, and the final state. -/
def runRead (service : String → Nat → List RecvStep) :
    Nat → ReaderM → List RespM → List RespM × Bool × ReaderM
  | 0, s, acc => (acc, false, s)
  | fuel + 1, s, acc =>
      match readNextResponse service s with
      | (.eof, s1, _) => (acc, true, s1)
      | (.errR _, s1, _) => runRead service fuel { s1 with conn := none } acc
      | (.okR r, s1, _) => runRead service fuel s1 (acc ++ [r])

/-- The rows delivered by a list of responses, in order. -/
def rowsOf (l : List RespM) : List Nat := (l.map RespM.rows).flatten

/-- Specification of a well-behaved stream server for source table `table`:
a stream opened at row offset `k` delivers responses whose `rowCount` matches
the encoded rows and whose rows are the consecutive source rows starting at
the offset reached so far; it may be cut by a transport error at any point,
and closes normally only once all rows are delivered. -/
def deliversB (table : List Nat) : Nat → List RecvStep → Bool
  | k, [] => k == table.length
  | _, .errS _ :: _ => true
  | k, .resp r :: rest =>
      (r.rowCount == r.rows.length)
        && ((table.drop k).take r.rows.length == r.rows)
        && deliversB table (k + r.rows.length) rest

theorem rowsOf_append_single (acc : List RespM) (r : RespM) :
    rowsOf (acc ++ [r]) = rowsOf acc ++ r.rows := by
  simp [rowsOf]

theorem runRead_open (service : String → Nat → List RecvStep) (fuel : Nat) (s : ReaderM)
    (acc : List RespM) (nm : String) (t : List String)
    (hc : s.conn = none) (hst : s.streams = nm :: t) :
    runRead service (fuel + 1) s acc =
      runRead service (fuel + 1) { s with conn := some (service nm s.offset) } acc := by
  obtain ⟨sb, streams, conn, off, rr⟩ := s
  simp only at hc hst
  subst hc
  subst hst
  rcases hrs : recvStep ⟨sb, nm :: t, some (service nm off), off, rr⟩ (service nm off)
    with ⟨res, s2⟩
  have h1 : readNextResponse service ⟨sb, nm :: t, none, off, rr⟩ = (res, s2, [(nm, off)]) := by
    simp [readNextResponse, hrs]
  have h2 : readNextResponse service ⟨sb, nm :: t, some (service nm off), off, rr⟩
      = (res, s2, []) := by
    simp [readNextResponse, hrs]
  simp only [runRead, h1, h2]
  cases res <;> rfl

theorem runRead_someStep (table : List Nat) (service : String → Nat → List RecvStep)
    (nm : String) (n : Nat)
    (ih : ∀ s acc res s9, s.streams.head? = some nm →
          rowsOf acc = table.take s.offset →
          s.offset ≤ table.length →
          (∀ pending, s.conn = some pending → deliversB table s.offset pending = true) →
          runRead service n s acc = (res, true, s9) → rowsOf res = table)
    (s : ReaderM) (pending : List RecvStep) (acc res : List RespM) (s9 : ReaderM)
    (hc : s.conn = some pending)
    (hhead : s.streams.head? = some nm)
    (hacc : rowsOf acc = table.take s.offset)
    (hoff : s.offset ≤ table.length)
    (hdel : deliversB table s.offset pending = true)
    (hrun : runRead service (n + 1) s acc = (res, true, s9)) :
    rowsOf res = table := by
  cases pending with
  | nil =>
    have hlen : s.offset = table.length := by
      rw [deliversB] at hdel
      exact beq_iff_eq.mp hdel
    have h1 : readNextResponse service s = (.eof, { s with conn := none }, []) := by
      simp [readNextResponse, hc, recvStep]
    simp only [runRead, h1, Prod.mk.injEq] at hrun
    obtain ⟨h2, -⟩ := hrun
    rw [← h2, hacc, hlen, List.take_length]
  | cons step rest =>
    cases step with
    | errS c =>
      have h1 : readNextResponse service s = (.errR c, s, []) := by
        simp [readNextResponse, hc, recvStep]
      simp only [runRead, h1] at hrun
      refine ih _ _ _ _ ?_ ?_ ?_ ?_ hrun
      · exact hhead
      · exact hacc
      · exact hoff
      · intro p hp
        simp at hp
    | resp rsp =>
      have h1 : readNextResponse service s =
          (.okR rsp, { s with conn := some rest, offset := s.offset + rsp.rowCount }, []) := by
        simp [readNextResponse, hc, recvStep]
      simp only [runRead, h1] at hrun
      rw [deliversB] at hdel
      simp only [Bool.and_eq_true, beq_iff_eq] at hdel
      obtain ⟨⟨hcnt, htake⟩, hrest⟩ := hdel
      have hlen : rsp.rows.length ≤ table.length - s.offset := by
        have hl := congrArg List.length htake
        simp only [List.length_take, List.length_drop] at hl
        omega
      refine ih _ _ _ _ ?_ ?_ ?_ ?_ hrun
      · exact hhead
      · show rowsOf (acc ++ [rsp]) = table.take (s.offset + rsp.rowCount)
        rw [rowsOf_append_single, hacc, hcnt, List.take_add, htake]
      · show s.offset + rsp.rowCount ≤ table.length
        rw [hcnt]
        omega
      · intro p hp
        obtain rfl : rest = p := Option.some.inj hp
        show deliversB table (s.offset + rsp.rowCount) rest = true
        rw [hcnt]
        exact hrest

theorem runRead_exact (table : List Nat) (service : String → Nat → List RecvStep) (nm : String)
    (hs : ∀ k, k ≤ table.length → deliversB table k (service nm k) = true) :
    ∀ fuel s acc res s9,
      s.streams.head? = some nm →
      rowsOf acc = table.take s.offset →
      s.offset ≤ table.length →
      (∀ pending, s.conn = some pending → deliversB table s.offset pending = true) →
      runRead service fuel s acc = (res, true, s9) →
      rowsOf res = table := by
  intro fuel
  induction fuel with
  | zero =>
    intro s acc res s9 _ _ _ _ hrun
    simp [runRead] at hrun
  | succ n ih =>
    intro s acc res s9 hhead hacc hoff hconn hrun
    rcases hc : s.conn with _ | pending
    · rcases hst : s.streams with _ | ⟨nm0, t⟩
      · rw [hst] at hhead
        simp at hhead
      · have hnm : nm0 = nm := by
          rw [hst] at hhead
          simpa using hhead
        subst hnm
        rw [runRead_open service n s acc nm0 t hc hst] at hrun
        refine runRead_someStep table service nm0 n ih _ (service nm0 s.offset) acc res s9
          ?_ ?_ ?_ ?_ ?_ hrun
        · rfl
        · exact hhead
        · exact hacc
        · exact hoff
        · exact hs s.offset hoff
    · exact runRead_someStep table service nm n ih s pending acc res s9 hc hhead hacc hoff
        (hconn pending hc) hrun

theorem readNextResponse_offset (service : String → Nat → List RecvStep) (s : ReaderM) :
    match readNextResponse service s with
    | (.okR rsp, s1, _) => s1.offset = s.offset + rsp.rowCount
    | (.eof, s1, _) => s1.offset = s.offset
    | (.errR _, s1, _) => s1.offset = s.offset := by
  rcases hc : s.conn with _ | pending
  · rcases hst : s.streams with _ | ⟨nm0, t⟩
    · simp [readNextResponse, hc, hst]
    · rcases hp : service nm0 s.offset with _ | ⟨step, rest⟩
      · simp [readNextResponse, hc, hst, hp, recvStep]
      · cases step <;> simp [readNextResponse, hc, hst, hp, recvStep]
  · rcases pending with _ | ⟨step, rest⟩
    · simp [readNextResponse, hc, recvStep]
    · cases step <;> simp [readNextResponse, hc, recvStep]

/-- C1: the reader's row offset is advanced only after a response has been
fully received — an EOF or a transport error leaves the offset unchanged,
and a received response advances it by exactly that response's row count —
and consequently, for a stream served by a well-behaved source (`deliversB`)
that is interrupted by retryable errors at arbitrary points and resumed at
the recorded offset, the row sequence delivered to the caller is exactly the
source table: each source row exactly once, no gap, no duplicate. -/
theorem C1_offset_advance_and_resume :
    (∀ (service : String → Nat → List RecvStep) (s s1 : ReaderM)
       (opens : List (String × Nat)),
       (readNextResponse service s = (.eof, s1, opens) → s1.offset = s.offset) ∧
       (∀ c, readNextResponse service s = (.errR c, s1, opens) → s1.offset = s.offset) ∧
       (∀ rsp, readNextResponse service s = (.okR rsp, s1, opens) →
          s1.offset = s.offset + rsp.rowCount)) ∧
    (∀ (table : List Nat) (service : String → Nat → List RecvStep) (nm : String)
       (sb : List Nat) (rr : Option IpcM) (fuel : Nat) (res : List RespM) (s9 : ReaderM),
       (∀ k, k ≤ table.length → deliversB table k (service nm k) = true) →
       runRead service fuel
         { schemaBytes := sb, streams := [nm], conn := none, offset := 0, r := rr } []
         = (res, true, s9) →
       rowsOf res = table) := by
  constructor
  · intro service s s1 opens
    have h := readNextResponse_offset service s
    refine ⟨?_, ?_, ?_⟩
    · intro heq
      rw [heq] at h
      exact h
    · intro c heq
      rw [heq] at h
      exact h
    · intro rsp heq
      rw [heq] at h
      exact h
  · intro table service nm sb rr fuel res s9 hs hrun
    refine runRead_exact table service nm hs fuel _ [] res s9 ?_ ?_ ?_ ?_ hrun
    · rfl
    · simp [rowsOf]
    · exact Nat.zero_le _
    · intro p hp
      simp at hp

/-- Concrete well-behaved service for the C1 witness: the stream opened at
offset 0 delivers one row and dies with a retryable error; reopened at
offset 1 it delivers the remaining two rows and closes. -/
def c1svc : String → Nat → List RecvStep := fun _ k =>
  if k = 0 then [.resp { rowCount := 1, rows := [10], batch := [5] }, .errS 14]
  else if k = 1 then [.resp { rowCount := 2, rows := [20, 30], batch := [6] }]
  else if k = 3 then []
  else [.errS 14]

/-- C1 witness: at the concrete interrupted-and-resumed service, the rows
delivered are exactly the source table. -/
theorem C1_witness :
    (∀ k, k ≤ 3 → deliversB [10, 20, 30] k (c1svc "s" k) = true) ∧
      rowsOf (runRead c1svc 10
        { schemaBytes := [], streams := ["s"], conn := none, offset := 0, r := none } []).1
        = [10, 20, 30] := by
  have hdel : ∀ k, k ≤ 3 → deliversB [10, 20, 30] k (c1svc "s" k) = true := by decide
  refine ⟨hdel, ?_⟩
  have hrun : runRead c1svc 10
      { schemaBytes := [], streams := ["s"], conn := none, offset := 0, r := none } []
      = ([{ rowCount := 1, rows := [10], batch := [5] },
          { rowCount := 2, rows := [20, 30], batch := [6] }], true,
         { schemaBytes := [], streams := ["s"], conn := none, offset := 3, r := none }) := by
    decide
  rw [hrun]
  exact C1_offset_advance_and_resume.2 [10, 20, 30] c1svc "s" [] none 10 _ _ hdel hrun

theorem recvStep_streams (s : ReaderM) (pending : List RecvStep) :
    (recvStep s pending).2.streams = s.streams := by
  rcases pending with _ | ⟨step, rest⟩
  · rfl
  · cases step <;> rfl

theorem readNextResponse_opens_of_none (service : String → Nat → List RecvStep)
    (s1 : ReaderM) (nm : String) (t : List String)
    (hc : s1.conn = none) (hst : s1.streams = nm :: t) :
    (readNextResponse service s1).2.2 = [(nm, s1.offset)] := by
  simp [readNextResponse, hc, hst]

/-- C9: the reader only ever consumes the first stream of the session — every
open call issued by `readNextResponse` targets the stream at index 0 of the
(unchanged) stream list, at the current offset — and after an end-of-stream
the connection is cleared, so a subsequent read reopens that same first
stream at the accumulated offset rather than moving to any later stream. -/
theorem C9_first_stream_only :
    (∀ (service : String → Nat → List RecvStep) (s : ReaderM) (e : String × Nat),
       e ∈ (readNextResponse service s).2.2 →
       s.streams.head? = some e.1 ∧ e.2 = s.offset) ∧
    (∀ (service : String → Nat → List RecvStep) (s : ReaderM),
       (readNextResponse service s).2.1.streams = s.streams) ∧
    (∀ (service : String → Nat → List RecvStep) (s s1 : ReaderM)
       (opens : List (String × Nat)),
       readNextResponse service s = (.eof, s1, opens) →
       s1.conn = none ∧
         ∀ nm t, s1.streams = nm :: t →
           (readNextResponse service s1).2.2 = [(nm, s1.offset)]) := by
  refine ⟨?_, ?_, ?_⟩
  · intro service s e he
    obtain ⟨sb, streams, conn, off, rr⟩ := s
    rcases conn with _ | pending
    · rcases streams with _ | ⟨nm0, t⟩
      · simp [readNextResponse] at he
      · simp [readNextResponse] at he
        subst he
        exact ⟨rfl, rfl⟩
    · simp [readNextResponse] at he
  · intro service s
    obtain ⟨sb, streams, conn, off, rr⟩ := s
    rcases conn with _ | pending
    · rcases streams with _ | ⟨nm0, t⟩
      · rfl
      · exact recvStep_streams _ _
    · exact recvStep_streams _ _
  · intro service s s1 opens heq
    obtain ⟨sb, streams, conn, off, rr⟩ := s
    rcases conn with _ | pending
    · rcases streams with _ | ⟨nm0, t0⟩
      · simp only [readNextResponse, Prod.mk.injEq] at heq
        obtain ⟨-, h1, -⟩ := heq
        refine ⟨by rw [← h1], ?_⟩
        intro nm t hs1
        rw [← h1] at hs1
        simp at hs1
      · rcases hp : service nm0 off with _ | ⟨step, rest⟩
        · simp only [readNextResponse, hp, recvStep, Prod.mk.injEq] at heq
          obtain ⟨-, h1, -⟩ := heq
          refine ⟨by rw [← h1], ?_⟩
          intro nm t hs1
          exact readNextResponse_opens_of_none service s1 nm t (by rw [← h1]) hs1
        · cases step <;>
            simp only [readNextResponse, hp, recvStep, Prod.mk.injEq] at heq <;>
            simp at heq
    · rcases pending with _ | ⟨step, rest⟩
      · simp only [readNextResponse, recvStep, Prod.mk.injEq] at heq
        obtain ⟨-, h1, -⟩ := heq
        refine ⟨by rw [← h1], ?_⟩
        intro nm t hs1
        exact readNextResponse_opens_of_none service s1 nm t (by rw [← h1]) hs1
      · cases step <;>
          simp only [readNextResponse, recvStep, Prod.mk.injEq] at heq <;>
          simp at heq

/-- Service for the C9 witness: every stream is already exhausted. -/
def c9svc : String → Nat → List RecvStep := fun _ _ => []

/-- C9 witness state: a session with two streams, connection open and
exhausted, 5 rows already consumed. -/
def c9state1 : ReaderM :=
  { schemaBytes := [], streams := ["a", "b"], conn := some [], offset := 5, r := none }

/-- C9 witness state after the end-of-stream: connection cleared. -/
def c9state2 : ReaderM :=
  { schemaBytes := [], streams := ["a", "b"], conn := none, offset := 5, r := none }

/-- C9 witness: in a session holding two streams, an end-of-stream on the
first stream is followed by a reopen of the first stream "a" at the
accumulated offset 5 — stream "b" is never opened. -/
theorem C9_witness :
    readNextResponse c9svc c9state1 = (.eof, c9state2, []) ∧
      (readNextResponse c9svc c9state2).2.2 = [("a", 5)] := by
  refine ⟨by decide, ?_⟩
  exact (C9_first_stream_only.2.2 c9svc c9state1 c9state2 [] (by decide)).2 "a" ["b"] rfl

/-! ### Schema and Close (bigquery.go, lines 241-259) -/

/-- Translation of `Schema`: returns the IPC reader's schema, or an error
when no IPC reader is available. -/
def Schema (s : ReaderM) : Except Unit Nat :=
  match s.r with
  | none => .error ()
  | some ipc => .ok ipc.schema

/-- Translation of `Close`: releases and clears the IPC reader if present;
always returns nil.  The gRPC stream is not touched. -/
def Close (s : ReaderM) : Option Unit × ReaderM :=
  match s.r with
  | some _ => (none, { s with r := none })
  | none => (none, s)

/-- The state after a `Close` call. -/
def closeState (s : ReaderM) : ReaderM := (Close s).2

theorem closeState_r (s : ReaderM) : (closeState s).r = none := by
  rcases h : s.r with _ | ipc <;> simp [closeState, Close, h]

/-- C10: `Close` is idempotent — it returns nil on every call, the second and
all later calls leave the state unchanged, and after the first `Close` the
`Schema` operation returns an error rather than a schema. -/
theorem C10_close_idem (s : ReaderM) (n : Nat) :
    (Close s).1 = none ∧
      Close (closeState s) = (none, closeState s) ∧
      Schema (closeState s) = .error () ∧
      closeState^[n + 1] s = closeState s := by
  have hr := closeState_r s
  have hfix : Close (closeState s) = (none, closeState s) := by
    rw [Close, hr]
  refine ⟨?_, hfix, ?_, ?_⟩
  · rcases h : s.r with _ | ipc <;> simp [Close, h]
  · rw [Schema, hr]
  · rw [Function.iterate_succ_apply]
    exact Function.iterate_fixed (by rw [closeState, hfix]) n

/-- C2 counterexample: a stream-read (ReadRows) error classified as
deadline-exceeded is NOT retried — the ReadRows retry policy lists only
Unavailable, so the claimed retry of deadline-exceeded stream-read errors
fails; DeadlineExceeded is retryable only for CreateReadSession. -/
theorem C2_counterexample :
    shouldRetry defaultBigQueryReadCallOptions.readRows codeDeadlineExceeded = false := by
  decide

/-- C2 (amended): a stream-read error is retried iff it is classified
unavailable (deadline-exceeded is retryable only for session creation, where
both codes are listed); the backoff envelope uses initial 100ms, multiplier
1.3 and cap 60s, is non-decreasing and bounded by the configured maximum;
and a received transport error is returned to the caller at once with the
reader state unchanged. -/
theorem C2_retry_classification :
    (∀ c, shouldRetry defaultBigQueryReadCallOptions.readRows c = true ↔
        c = codeUnavailable) ∧
    (∀ c, shouldRetry defaultBigQueryReadCallOptions.createReadSession c = true ↔
        (c = codeDeadlineExceeded ∨ c = codeUnavailable)) ∧
    (∀ n, backoffDelay defaultBigQueryReadCallOptions.readRows.backoff n ≤
        backoffDelay defaultBigQueryReadCallOptions.readRows.backoff (n + 1) ∧
      backoffDelay defaultBigQueryReadCallOptions.readRows.backoff n ≤
        defaultBigQueryReadCallOptions.readRows.backoff.maxMs) ∧
    defaultBigQueryReadCallOptions.readRows.backoff =
      { initialMs := 100, maxMs := 60000, multTenths := 13 } ∧
    (∀ (service : String → Nat → List RecvStep) (s : ReaderM) (c : Nat)
       (rest : List RecvStep),
       s.conn = some (RecvStep.errS c :: rest) →
       (readNextResponse service s).1 = .errR c ∧
         (readNextResponse service s).2.1 = s) := by
  refine ⟨?_, ?_, ?_, rfl, ?_⟩
  · intro c
    simp [shouldRetry, defaultBigQueryReadCallOptions, codeUnavailable, List.contains]
  · intro c
    simp [shouldRetry, defaultBigQueryReadCallOptions, codeUnavailable,
      codeDeadlineExceeded, List.contains]
  · intro n
    exact ⟨backoffDelay_mono n, (backoffDelay_bounds n).2⟩
  · intro service s c rest hc
    constructor <;> simp [readNextResponse, hc, recvStep]

/-- C2 witness state: reader whose open stream delivers a transport error
with a code (13, Internal) outside the retryable set. -/
def c2state : ReaderM :=
  { schemaBytes := [], streams := ["s"], conn := some [RecvStep.errS 13], offset := 0,
    r := none }

/-- C2 witness: the immediate propagation of a transport error at a concrete
reader state. -/
theorem C2_witness :
    c2state.conn = some (RecvStep.errS 13 :: []) ∧
      (readNextResponse c9svc c2state).1 = .errR 13 :=
  ⟨rfl, (C2_retry_classification.2.2.2.2 c9svc c2state 13 [] rfl).1⟩

/-! ### Record reconstruction and Read (bigquery.go, lines 150-239)

The Arrow IPC decoder is a parameter `decode`: it parses a self-contained
byte sequence into a schema and the records it encodes, or fails.
`processRecordBatch` resets the reusable buffer and writes the session's
serialized schema followed by the raw batch bytes — modelled as the
concatenation `s.schemaBytes ++ data` — then builds a fresh IPC reader over
those bytes (keeping the previously parsed schema, as `ipc.WithSchema`
does), and extracts the first decoded record via `Next()`; zero decoded
records yield no record and no error.  The Go code reports deferred iterator
errors at construction in our model (decode is all-or-nothing). -/

/-- Model of `ipc.Reader.Next()` followed by `Record()`: yield the record at
the cursor and advance, or report exhaustion. -/
def ipcNext (ipc : IpcM) : Option RecM × IpcM :=
  match ipc.recs.drop ipc.pos with
  | [] => (none, ipc)
  | rc :: _ => (some rc, { ipc with pos := ipc.pos + 1 })

/-- Translation of `processRecordBatch` (bigquery.go lines 215-239).  The
`none` case of `s.r` corresponds to the nil-pointer use of `r.r.Schema()`
after `Close`, modelled as an error. -/
def processRecordBatch (decode : List Nat → Except Unit (Nat × List RecM))
    (s : ReaderM) (data : List Nat) : Except Unit (Option RecM) × ReaderM :=
  match s.r with
  | none => (.error (), s)
  | some ipc =>
      match decode (s.schemaBytes ++ data) with
      | .error _ => (.error (), s)
      | .ok (_, recs) =>
          match recs with
          | [] => (.ok none, { s with r := some { schema := ipc.schema, recs := recs, pos := 0 } })
          | rc :: _ =>
              (.ok (some rc),
               { s with r := some { schema := ipc.schema, recs := recs, pos := 1 } })

inductive ReadOut
  | outRec (rc : RecM)
  | eofO
  | errO
  deriving DecidableEq, Repr

/-- Translation of `Read` (bigquery.go lines 152-182).  Each loop iteration
first drains the current IPC reader, then fetches the next response; a
response with an empty serialized batch, or a batch decoding to zero
records, makes the loop continue rather than terminate.  `fuel` bounds the
number of loop iterations. -/
def Read (decode : List Nat → Except Unit (Nat × List RecM))
    (service : String → Nat → List RecvStep) :
    Nat → ReaderM → ReadOut × ReaderM
  | 0, s => (.errO, s)
  | fuel + 1, s =>
      match
        match s.r with
        | some ipc =>
            match ipcNext ipc with
            | (some rc, ipc1) => some (rc, { s with r := some ipc1 })
            | (none, _) => none
        | none => none
      with
      | some (rc, s1) => (.outRec rc, s1)
      | none =>
          match readNextResponse service s with
          | (.eof, s1, _) => (.eofO, s1)
          | (.errR _, s1, _) => (.errO, s1)
          | (.okR resp, s1, _) =>
              if resp.batch = [] then Read decode service fuel s1
              else
                match processRecordBatch decode s1 resp.batch with
                | (.error _, s2) => (.errO, s2)
                | (.ok none, s2) => Read decode service fuel s2
                | (.ok (some rc), s2) => (.outRec rc, s2)

/-- Driver collecting the records a consumer obtains by calling `Read` until
end-of-stream; `rFuel` bounds each `Read` call, `fuel` the number of calls. -/
def readAll (decode : List Nat → Except Unit (Nat × List RecM))
    (service : String → Nat → List RecvStep) (rFuel : Nat) :
    Nat → ReaderM → List RecM → List RecM × Bool × ReaderM
  | 0, s, acc => (acc, false, s)
  | fuel + 1, s, acc =>
      match Read decode service rFuel s with
      | (.outRec rc, s1) => readAll decode service rFuel fuel s1 (acc ++ [rc])
      | (.eofO, s1) => (acc, true, s1)
      | (.errO, s1) => (acc, false, s1)

/-- Concrete decoder for the C3 scenario: schema bytes [9]; batch [1]
decodes to one 100-row record, batch [2] to zero records, batch [3] to one
50-row record. -/
def scDecode : List Nat → Except Unit (Nat × List RecM) := fun bs =>
  if bs = [9, 1] then .ok (7, [{ numRows := 100 }])
  else if bs = [9, 2] then .ok (7, [])
  else if bs = [9, 3] then .ok (7, [{ numRows := 50 }])
  else .error ()

/-- Concrete service for the C3 scenario: one stream delivering three raw
batches of 100, 0 and 50 rows (all with non-empty serialized bytes). -/
def scService : String → Nat → List RecvStep := fun _ k =>
  if k = 0 then
    [ .resp { rowCount := 100, rows := [], batch := [1] },
      .resp { rowCount := 0, rows := [], batch := [2] },
      .resp { rowCount := 50, rows := [], batch := [3] } ]
  else []

/-- Initial reader state for the C3 scenario, as built by session creation:
schema parsed, no records buffered. -/
def scInit : ReaderM :=
  { schemaBytes := [9], streams := ["s"], conn := none, offset := 0,
    r := some { schema := 7, recs := [], pos := 0 } }

/-- C3: `processRecordBatch` decodes the schema descriptor prefixed to the
raw batch bytes and returns exactly the first decoded record — in particular
a batch decoding to zero records returns no record and no error — and the
reader treats a zero-record batch as "read again": in the 100/0/50-row
scenario the reader yields exactly two records (100 rows, then 50 rows) and
reaches end-of-stream, the zero-row batch terminating nothing. -/
theorem C3_reconstruct_first_record :
    (∀ (decode : List Nat → Except Unit (Nat × List RecM)) (s : ReaderM) (data : List Nat)
       (e : Unit),
       decode (s.schemaBytes ++ data) = .error e → s.r ≠ none →
       (processRecordBatch decode s data).1 = .error ()) ∧
    (∀ (decode : List Nat → Except Unit (Nat × List RecM)) (s : ReaderM) (data : List Nat)
       (sch : Nat) (recs : List RecM),
       decode (s.schemaBytes ++ data) = .ok (sch, recs) → s.r ≠ none →
       (processRecordBatch decode s data).1 = .ok recs.head?) ∧
    (readAll scDecode scService 5 6 scInit []).1 = [{ numRows := 100 }, { numRows := 50 }] ∧
    (readAll scDecode scService 5 6 scInit []).2.1 = true := by
  refine ⟨?_, ?_, by decide, by decide⟩
  · intro decode s data e hdec hr
    rcases h : s.r with _ | ipc
    · exact absurd h hr
    · simp [processRecordBatch, h, hdec]
  · intro decode s data sch recs hdec hr
    rcases h : s.r with _ | ipc
    · exact absurd h hr
    · rcases recs with _ | ⟨rc, rest⟩ <;> simp [processRecordBatch, h, hdec]

/-- C3 witness: the zero-record batch [2] at the concrete scenario state
yields no record and no error. -/
theorem C3_witness :
    scDecode (scInit.schemaBytes ++ [2]) = .ok (7, []) ∧
      (processRecordBatch scDecode scInit [2]).1 = .ok (List.head? []) :=
  ⟨rfl,
   C3_reconstruct_first_record.2.1 scDecode scInit [2] 7 [] rfl (by simp [scInit])⟩

/-! ### Parquet serialization (WriteArrowRecordToParquet, snowflake Client)

The source creates the destination file UNDER ITS FINAL NAME with
`os.Create(outputFile)` (truncating), writes the record, and closes the
writer to flush.  The three fallible filesystem steps (create, write, close)
are modelled by Boolean fault switches; the resulting file state records
whether the file exists, whether its content is complete, and whether it
carries any explicit incomplete marker (the code has no temp-name, rename,
or marker mechanism, so no code path ever sets the marker). -/

structure WriteFault where
  createOk : Bool
  writeOk : Bool
  closeOk : Bool
  deriving DecidableEq, Repr

inductive FileState
  | absent
  | present (complete : Bool) (markedIncomplete : Bool)
  deriving DecidableEq, Repr

/-- Translation of `WriteArrowRecordToParquet`: on create failure the file is
absent and an error returned; on write failure the writer is closed
best-effort and an error returned, the file remaining present (truncated,
unmarked) under the final name; on close failure likewise; on success the
file is flushed, closed and complete. -/
def writeArrowRecordToParquet (wf : WriteFault) : Except Unit Unit × FileState :=
  if !wf.createOk then (.error (), .absent)
  else if !wf.writeOk then (.error (), .present false false)
  else if !wf.closeOk then (.error (), .present false false)
  else (.ok (), .present true false)

/-! ### Stage upload and bulk load (snowflake Client) -/

inductive SfAction
  | setOption (key val : String)
  | setSqlQuery (q : String)
  | executeUpdate
  | put (stage : List Char)
  deriving DecidableEq, Repr

/-- Translation of `UploadParquetToStage` at the action level: `os.Stat`
fails when the file is absent (no upload command issued); otherwise one PUT
command is issued for the normalized stage path. -/
def uploadParquetToStage (fileState : FileState) (stagePath : List Char) :
    Except Unit Unit × List SfAction :=
  match fileState with
  | .absent => (.error (), [])
  | .present _ _ => (.ok (), [SfAction.put (normalizeStage stagePath)])

/-- Translation of `ArrowToParquetStage`: write the record to Parquet, then
upload; the upload is not attempted when the write failed. -/
def arrowToParquetStage (wf : WriteFault) (stagePath : List Char) :
    Except Unit Unit × FileState × List SfAction :=
  match writeArrowRecordToParquet wf with
  | (.error e, st) => (.error e, st, [])
  | (.ok _, st) =>
      match uploadParquetToStage st stagePath with
      | (.error e, acts) => (.error e, st, acts)
      | (.ok _, acts) => (.ok (), st, acts)

/-- The COPY command issued by `LoadArrowIntoSnowflake` (verbatim from the
source). -/
def copyQuery : String :=
  "COPY INTO foo FROM @SYNCHRONICITY_STAGE FILE_FORMAT = (TYPE = PARQUET) MATCH_BY_COLUMN_NAME=CASE_INSENSITIVE"

/-- Translation of `LoadArrowIntoSnowflake` at the action level: the
connection plumbing aside, the statement sets the two ingest concurrency
options (literal values "4" and "8"), sets the COPY command, and executes it
once.  The DSN input influences only the connection, never the trace. -/
def loadArrowIntoSnowflake (dsn : String) : List SfAction :=
  [ .setOption "adbc.snowflake.statement.ingest_writer_concurrency" "4",
    .setOption "adbc.snowflake.statement.ingest_upload_concurrency" "8",
    .setSqlQuery copyQuery,
    .executeUpdate ]

/-- The mandatory configuration keys (internal/config/config.go,
`RequiredFields`). -/
def RequiredFields : List String :=
  ["project_id", "dataset", "table", "snowflake_dsn"]

def isExecuteUpdate : SfAction → Bool
  | .executeUpdate => true
  | _ => false

/-- C5 counterexample: with a failure during the record write, the function
returns an error but the destination file remains present under the final
name, incomplete and carrying no marker — neither absent nor explicitly
marked incomplete, contradicting the claim. -/
theorem C5_counterexample :
    (writeArrowRecordToParquet { createOk := true, writeOk := false, closeOk := true }).1
        = .error () ∧
      (writeArrowRecordToParquet { createOk := true, writeOk := false, closeOk := true }).2
        = FileState.present false false := by
  constructor <;> rfl

/-- C5 (amended): on success the file is fully flushed and closed (complete
under the final name), and the upload proceeds; on create failure the file
is absent; on write or close failure an error is returned but the file
remains present under the final name, truncated and unmarked, and no upload
is attempted. -/
theorem C5_write_outcomes (wf : WriteFault) (sp : List Char) :
    (wf.createOk = true → wf.writeOk = true → wf.closeOk = true →
      writeArrowRecordToParquet wf = (.ok (), .present true false) ∧
        arrowToParquetStage wf sp =
          (.ok (), .present true false, [SfAction.put (normalizeStage sp)])) ∧
    (wf.createOk = false →
      writeArrowRecordToParquet wf = (.error (), .absent)) ∧
    (wf.createOk = true → wf.writeOk = false →
      writeArrowRecordToParquet wf = (.error (), .present false false)) ∧
    (wf.createOk = true → wf.writeOk = true → wf.closeOk = false →
      writeArrowRecordToParquet wf = (.error (), .present false false)) ∧
    (∀ e, (writeArrowRecordToParquet wf).1 = .error e →
      (arrowToParquetStage wf sp).2.2 = []) := by
  obtain ⟨c, w, k⟩ := wf
  cases c <;> cases w <;> cases k <;>
    simp [writeArrowRecordToParquet, arrowToParquetStage, uploadParquetToStage]

/-- C5 witness: the success case at concrete fault switches. -/
theorem C5_witness :
    writeArrowRecordToParquet { createOk := true, writeOk := true, closeOk := true }
      = (.ok (), .present true false) :=
  ((C5_write_outcomes { createOk := true, writeOk := true, closeOk := true } ['s']).1
    rfl rfl rfl).1

/-- C7 counterexample: the write/upload concurrency values are not exposed as
configuration — the emitted trace is identical for every DSN, the values are
the hard-coded literals "4" and "8", and no concurrency key exists among the
tool's required configuration fields. -/
theorem C7_counterexample :
    loadArrowIntoSnowflake "dsnA" = loadArrowIntoSnowflake "dsnB" ∧
      SfAction.setOption "adbc.snowflake.statement.ingest_writer_concurrency" "4"
        ∈ loadArrowIntoSnowflake "dsnA" ∧
      SfAction.setOption "adbc.snowflake.statement.ingest_upload_concurrency" "8"
        ∈ loadArrowIntoSnowflake "dsnA" ∧
      RequiredFields.contains "writer_concurrency" = false ∧
      RequiredFields.contains "upload_concurrency" = false := by
  refine ⟨rfl, ?_, ?_, rfl, rfl⟩ <;> simp [loadArrowIntoSnowflake]

/-- C7 (amended): every bulk-load invocation issues exactly one bulk-ingest
command, whose COPY text ends with the clause matching columns by name
case-insensitively; the write concurrency 4 and upload concurrency 8 are set
as ADBC statement options whose values are hard-coded literals, identical
for every DSN. -/
theorem C7_bulk_load_trace (dsn : String) :
    loadArrowIntoSnowflake dsn =
      [ .setOption "adbc.snowflake.statement.ingest_writer_concurrency" "4",
        .setOption "adbc.snowflake.statement.ingest_upload_concurrency" "8",
        .setSqlQuery copyQuery,
        .executeUpdate ] ∧
    ((loadArrowIntoSnowflake dsn).filter isExecuteUpdate).length = 1 ∧
    (∃ pre, copyQuery.data = pre ++ "MATCH_BY_COLUMN_NAME=CASE_INSENSITIVE".data) := by
  refine ⟨rfl, rfl, ?_⟩
  exact ⟨"COPY INTO foo FROM @SYNCHRONICITY_STAGE FILE_FORMAT = (TYPE = PARQUET) ".data,
    by decide⟩

/-! ### Session creation (NewBigQueryReader, bigquery.go lines 85-129) and
the top-level transfer flow (cmd/syncronicity.go) -/

/-- A created read session: its stream handles and the serialized Arrow
schema. -/
structure SessionM where
  streams : List String
  serializedSchema : List Nat
  deriving DecidableEq, Repr

/-- Translation of `NewBigQueryReader`: propagate a session-creation error;
fail when the session has zero streams; fail when the serialized schema is
empty; fail when the schema bytes do not parse; otherwise build the reader
with the session's streams, offset 0, no open stream, and an IPC reader
initialized solely to parse the schema. -/
def newBigQueryReader (decode : List Nat → Except Unit (Nat × List RecM))
    (sessionRes : Except Unit SessionM) : Except Unit ReaderM :=
  match sessionRes with
  | .error e => .error e
  | .ok session =>
      if session.streams.length = 0 then .error ()
      else
        if session.serializedSchema.length = 0 then .error ()
        else
          match decode session.serializedSchema with
          | .error _ => .error ()
          | .ok (sch, recs) =>
              .ok { schemaBytes := session.serializedSchema, streams := session.streams,
                    conn := none, offset := 0,
                    r := some { schema := sch, recs := recs, pos := 0 } }

/-- The transfer flow of `cmd/syncronicity.go`: create the reader (aborting
on failure before anything is read or written), read one record, write it to
Parquet, upload the file to the stage, and issue the bulk load.  Returns the
outcome, the destination file state, and the Snowflake actions issued. -/
def runTransfer (decode : List Nat → Except Unit (Nat × List RecM))
    (service : String → Nat → List RecvStep) (sessionRes : Except Unit SessionM)
    (wf : WriteFault) (stagePath : List Char) (dsn : String) :
    Except Unit Unit × FileState × List SfAction :=
  match newBigQueryReader decode sessionRes with
  | .error e => (.error e, .absent, [])
  | .ok reader =>
      match Read decode service 9 reader with
      | (.outRec _, _) =>
          match arrowToParquetStage wf stagePath with
          | (.error e, st, acts) => (.error e, st, acts)
          | (.ok _, st, acts) => (.ok (), st, acts ++ loadArrowIntoSnowflake dsn)
      | (.eofO, _) => (.error (), .absent, [])
      | (.errO, _) => (.error (), .absent, [])

/-- C6: session creation fails when the source returns zero streams and when
the serialized schema is empty, and in the zero-stream case the whole
transfer aborts with an error before any file is written or any Snowflake
command is issued — zero streams is a fatal configuration error, not an
empty-result condition. -/
theorem C6_zero_streams_fatal :
    (∀ (decode : List Nat → Except Unit (Nat × List RecM)) (sess : SessionM),
       sess.streams = [] →
       newBigQueryReader decode (.ok sess) = .error ()) ∧
    (∀ (decode : List Nat → Except Unit (Nat × List RecM)) (sess : SessionM),
       sess.serializedSchema = [] →
       newBigQueryReader decode (.ok sess) = .error ()) ∧
    (∀ (decode : List Nat → Except Unit (Nat × List RecM))
       (service : String → Nat → List RecvStep) (sess : SessionM)
       (wf : WriteFault) (sp : List Char) (dsn : String),
       sess.streams = [] →
       runTransfer decode service (.ok sess) wf sp dsn = (.error (), .absent, [])) := by
  have hreader : ∀ (decode : List Nat → Except Unit (Nat × List RecM)) (sess : SessionM),
      sess.streams = [] → newBigQueryReader decode (.ok sess) = .error () := by
    intro decode sess h
    simp [newBigQueryReader, h]
  refine ⟨hreader, ?_, ?_⟩
  · intro decode sess h
    rcases hst : sess.streams with _ | ⟨nm, t⟩
    · exact hreader decode sess hst
    · simp [newBigQueryReader, hst, h]
  · intro decode service sess wf sp dsn h
    rw [runTransfer, hreader decode sess h]

/-- C6 witness: a zero-stream session at concrete inputs — the transfer
fails and neither a file nor a Snowflake action is produced. -/
theorem C6_witness :
    ({ streams := [], serializedSchema := [9] } : SessionM).streams = [] ∧
      runTransfer scDecode scService (.ok { streams := [], serializedSchema := [9] })
          { createOk := true, writeOk := true, closeOk := true } ['s'] "dsn"
        = (.error (), .absent, []) :=
  ⟨rfl, C6_zero_streams_fatal.2.2 scDecode scService
    { streams := [], serializedSchema := [9] }
    { createOk := true, writeOk := true, closeOk := true } ['s'] "dsn" rfl⟩

end Syncronicity
